import Mathlib

/-!
Shallow embedding of the recorder library's numeric core
(`src/utils.ts`, `src/wav.ts`).

Conventions used throughout:
* JS numbers are modelled as exact rationals (`ℚ`); `Math.log` is the real
  logarithm, so the volume-level function is stated over `ℝ` in its
  logarithmic branch.
* A `Float32Array` slot that may hold the result of storing `undefined`
  (which JS coerces to NaN) is modelled as `Option ℚ`, with `none` for NaN.
* JS exceptions (`throw new Error(...)`) are modelled with `Except String`.
* `DataView`/typed-array integer stores use the ECMAScript `ToInt8`,
  `ToInt16`, `ToUint32` conversions: truncation toward zero followed by a
  wrap into the target range.
-/

namespace Recorder

/-- ECMAScript integer conversion step: truncation toward zero. -/
def jsTrunc (q : ℚ) : ℤ := if q < 0 then -⌊-q⌋ else ⌊q⌋

/-- JS `Math.round x` is `⌊x + 1/2⌋` (round half toward +∞). -/
def jsRound (q : ℚ) : ℤ := ⌊q + 1 / 2⌋

/-- `ToInt8`: the value an `Int8Array` slot holds after storing `q`. -/
def jsToInt8 (q : ℚ) : ℤ := (jsTrunc q + 128) % 256 - 128

/-- `ToInt16`: the value an `Int16Array` slot holds after storing `q`. -/
def jsToInt16 (q : ℚ) : ℤ := (jsTrunc q + 32768) % 65536 - 32768

/-- `ToUint16`: the 16-bit pattern `DataView.setInt16`/`setUint16` store. -/
def jsToUint16 (q : ℚ) : ℕ := (jsTrunc q % 65536).toNat

/-- `ToUint32`: the 32-bit pattern `DataView.setUint32` stores. -/
def jsToUint32 (q : ℚ) : ℕ := (jsTrunc q % 4294967296).toNat

/-- `utils.ts` `float32Value2Int8`: clamp to `[-1,1]`, scale negatives by
128 and non-negatives by 127, then shift by `+128`. -/
def float32Value2Int8 (data : ℚ) : ℚ :=
  let s := max (-1) (min 1 data)
  let val := if s < 0 then s * 128 else s * 127
  val + 128

/-- `utils.ts` `float32Value2Int16`: clamp to `[-1,1]`, scale negatives by
`0x8000 = 32768` and non-negatives by `0x7FFF = 32767`. -/
def float32Value2Int16 (data : ℚ) : ℚ :=
  let s := max (-1) (min 1 data)
  if s < 0 then s * 32768 else s * 32767

/-! ### `utils.ts` `mergeMultiChannelsBuffer` (channel interleaving) -/

/-- The channel-length maximum computed by the `for (const channel of
channels)` loop in `mergeMultiChannelsBuffer`, starting from
`channels[0].length` (`headD`; the JS code throws a `TypeError` on an
empty channel list before this loop, a case none of the claims reach). -/
def maxChannelLength (channels : List (List ℚ)) : ℕ :=
  channels.foldl (fun acc ch => if ch.length > acc then ch.length else acc)
    (channels.headD []).length

/-- `utils.ts` `mergeMultiChannelsBuffer`.  A single channel is returned
as-is.  Otherwise the nested loops fill a fresh buffer of size
`channelLength * channels.length` at index `i * channels.length + j` with
`channels[j][i]`; the writes happen at consecutive indices in exactly the
flattened row order below and cover every slot of the buffer.  When
`i ≥ channels[j].length` the JS read `channels[j][i]` is `undefined` and
the `Float32Array` store coerces it to NaN — modelled by `none`. -/
def mergeMultiChannelsBuffer (channels : List (List ℚ)) : List (Option ℚ) :=
  match channels with
  | [ch] => ch.map some
  | _ =>
    let channelLength := maxChannelLength channels
    ((List.range channelLength).map (fun i =>
      channels.map (fun ch => ch[i]?))).flatten

/-! ### `utils.ts` `sampleRateConverter` (linear-interpolation resampler)

The loop body of the converter, for output indices `n ≥ 1`.  The source
writes `output[0] = input[0]` before the loop and fills `output[n]` for
`1 ≤ n < outputLength`; both are captured by the `if n = 0` test below,
which produces the same buffer contents in the same order.  The guards on
`ceil`/`floor` keep both indices inside `[0, inputLength)` whenever
`inputLength > 0` (in exact arithmetic `fn ≤ inputLength - 1` already),
so the `getD _ 0` defaults are never consulted; a JS out-of-bounds read
would instead produce `undefined`. -/
def srcOutput (input : List ℚ) (inputSampleRate outputSampleRate : ℚ) : List ℚ :=
  let inputLength := input.length
  let outputLength := (jsRound ((inputLength * outputSampleRate) / inputSampleRate)).toNat
  let S := input.map (fun v => v / 32768)
  let f := ((inputLength : ℚ) - 1) / ((outputLength : ℚ) - 1)
  (List.range outputLength).map (fun (n : ℕ) =>
    if n = 0 then input.headD 0
    else
      let fn : ℚ := f * (n : ℚ)
      let cf : ℤ × ℤ :=
        if ⌈fn⌉ ≥ (inputLength : ℤ) ∧ ⌊fn⌋ < (inputLength : ℤ) then (⌊fn⌋, ⌊fn⌋)
        else if ⌈fn⌉ ≥ (inputLength : ℤ) ∧ ⌊fn⌋ ≥ (inputLength : ℤ) then
          ((inputLength : ℤ) - 1, (inputLength : ℤ) - 1)
        else (⌈fn⌉, ⌊fn⌋)
      let Sc := S.getD cf.1.toNat 0
      let Sf := S.getD cf.2.toNat 0
      (Sf + (fn - (cf.2 : ℚ)) * (Sc - Sf)) * 32768)

/-- `utils.ts` `sampleRateConverter`: null check, rate validation, identity
shortcut on equal rates, otherwise the interpolation loop above.  A JS
`null` argument is `none`; a thrown `Error` is `Except.error`. -/
def sampleRateConverter (input : Option (List ℚ))
    (inputSampleRate : ℚ) (outputSampleRate : ℚ) : Except String (List ℚ) :=
  match input with
  | none => .error "input data is null"
  | some input =>
    if inputSampleRate ≤ 1 ∨ outputSampleRate ≤ 1 then
      .error "sample rate must be greater than 1"
    else if inputSampleRate = outputSampleRate then
      .ok input
    else
      .ok (srcOutput input inputSampleRate outputSampleRate)

/-! ### `wav.ts` WAV header and container encoding -/

/-- Byte content of a JS string as written by `writeString` in `wav.ts`
(one byte per `charCodeAt`; all markers are ASCII). -/
def stringBytes (content : String) : List ℕ := content.toList.map Char.toNat

/-- The single byte `DataView.setInt8` stores for a JS number. -/
def jsByte (q : ℚ) : ℕ := (jsTrunc q % 256).toNat

/-- The two bytes a 16-bit `DataView` store lays down, in buffer order. -/
def uint16bytes (v : ℕ) (littleEndian : Bool) : List ℕ :=
  if littleEndian then [v % 256, v / 256 % 256] else [v / 256 % 256, v % 256]

/-- The four bytes a 32-bit `DataView` store lays down, in buffer order. -/
def uint32bytes (v : ℕ) (littleEndian : Bool) : List ℕ :=
  if littleEndian then
    [v % 256, v / 256 % 256, v / 65536 % 256, v / 16777216 % 256]
  else
    [v / 16777216 % 256, v / 65536 % 256, v / 256 % 256, v % 256]

/-- Write a run of bytes into a byte buffer starting at offset `off`
(out-of-range writes are dropped, as on a JS `DataView`-backed buffer they
would throw; all writes below are in range). -/
def setBytes (buf : List ℕ) (off : ℕ) (bs : List ℕ) : List ℕ :=
  buf.take off ++ bs ++ buf.drop (off + bs.length)

/-- `wav.ts` `writeWavHeader`: the 13 field writes of the 44-byte canonical
WAV header, at their fixed offsets, in source order.  Numeric fields pass
through the `ToUint32`/`ToUint16` conversions of `setUint32`/`setUint16`;
`bitDepth / 8` is exact JS division, hence computed in ℚ. -/
def writeWavHeader (buf : List ℕ) (len sampleRate numberOfChannels bitDepth : ℕ)
    (littleEndian : Bool) : List ℕ :=
  let b0 := setBytes buf 0 (stringBytes "RIFF")
  let b1 := setBytes b0 4 (uint32bytes (jsToUint32 (36 + (len : ℚ))) littleEndian)
  let b2 := setBytes b1 8 (stringBytes "WAVE")
  let b3 := setBytes b2 12 (stringBytes "fmt ")
  let b4 := setBytes b3 16 (uint32bytes (jsToUint32 16) littleEndian)
  let b5 := setBytes b4 20 (uint16bytes (jsToUint16 1) littleEndian)
  let b6 := setBytes b5 22 (uint16bytes (jsToUint16 (numberOfChannels : ℚ)) littleEndian)
  let b7 := setBytes b6 24 (uint32bytes (jsToUint32 (sampleRate : ℚ)) littleEndian)
  let b8 := setBytes b7 28
    (uint32bytes (jsToUint32 ((sampleRate : ℚ) * (numberOfChannels : ℚ) * ((bitDepth : ℚ) / 8))) littleEndian)
  let b9 := setBytes b8 32
    (uint16bytes (jsToUint16 ((numberOfChannels : ℚ) * ((bitDepth : ℚ) / 8))) littleEndian)
  let b10 := setBytes b9 34 (uint16bytes (jsToUint16 (bitDepth : ℚ)) littleEndian)
  let b11 := setBytes b10 36 (stringBytes "data")
  setBytes b11 40 (uint32bytes (jsToUint32 (len : ℚ)) littleEndian)

/-- `wav.ts` `createWavHeaderBuffer`: a fresh zeroed 44-byte buffer with
the header written into it. -/
def createWavHeaderBuffer (len sampleRate numberOfChannels bitDepth : ℕ)
    (littleEndian : Bool) : List ℕ :=
  writeWavHeader (List.replicate 44 0) len sampleRate numberOfChannels
    bitDepth littleEndian

/-- `wav.ts` `numberArray2wav`.  The subject of claim C2: the source calls
`writeWavHeader(view, length, sampleRate, numberOfChannels, bitDepth)`
WITHOUT forwarding `littleEndian` (line 150), so the header is written with
the default `isLittleEndian()` — the host byte order, modelled by the
explicit parameter `hostLittleEndian` — while the 16-bit payload honours
the caller's `littleEndian` flag.  The payload loop writes 2-byte (or
1-byte) runs at consecutive offsets from 44, exactly the flattened list
below; the data length `(data.length * bitDepth) / 8` is exact for the two
bit depths that pass the guard. -/
def numberArray2wav (data : List ℚ) (numberOfChannels sampleRate bitDepth : ℕ)
    (littleEndian hostLittleEndian : Bool) : Except String (List ℕ) :=
  let len := data.length * bitDepth / 8
  let header := writeWavHeader (List.replicate (44 + len) 0) len sampleRate
    numberOfChannels bitDepth hostLittleEndian
  if bitDepth = 8 then
    .ok (setBytes header 44 (data.map jsByte))
  else if bitDepth = 16 then
    .ok (setBytes header 44
      ((data.map (fun sample => uint16bytes (jsToUint16 sample) littleEndian)).flatten))
  else .error "bitDepth must be 8 or 16"

/-- `wav.ts` `float32Buffer2wav`: quantize the float samples into an
`Int8Array`/`Int16Array` (whose stores apply `ToInt8`/`ToInt16`), spread
the integers back into a plain array, and delegate to `numberArray2wav`. -/
def float32Buffer2wav (data : List ℚ) (numberOfChannels sampleRate bitDepth : ℕ)
    (littleEndian hostLittleEndian : Bool) : Except String (List ℕ) :=
  if bitDepth = 8 then
    numberArray2wav (data.map (fun sample => ((jsToInt8 (float32Value2Int8 sample) : ℤ) : ℚ)))
      numberOfChannels sampleRate bitDepth littleEndian hostLittleEndian
  else if bitDepth = 16 then
    numberArray2wav (data.map (fun sample => ((jsToInt16 (float32Value2Int16 sample) : ℤ) : ℚ)))
      numberOfChannels sampleRate bitDepth littleEndian hostLittleEndian
  else .error "bitDepth must be 8 or 16"

/-! ### `utils.ts` volume meter and `recorder.ts` `getVolume` -/

/-- `utils.ts` `convertToMono`: a single channel is returned as-is;
otherwise the per-index arithmetic mean over `multiChannelData[0].length`
sample indices.  The claims only evaluate this on equal-length channels;
on ragged input the JS read `multiChannelData[j][i]` past a short channel
is `undefined` (poisoning the sum with NaN), while this model reads a
default `0` — the uniformity hypotheses of the theorems below keep model
and source in agreement.  (On an empty channel list the JS code throws a
`TypeError` reading `multiChannelData[0].length`; unreached here.) -/
def convertToMono (multiChannelData : List (List ℚ)) : List ℚ :=
  match multiChannelData with
  | [ch] => ch
  | _ =>
    let channels := multiChannelData.length
    let samples := (multiChannelData.headD []).length
    (List.range samples).map (fun i =>
      (multiChannelData.foldl (fun sum ch => sum + ch.getD i 0) 0) / channels)

/-- `utils.ts` `calcPcmAbsSum`: quantize the mono signal per sample with
`float32Value2Int16` and accumulate absolute values.  (The `Int16Array`
store `pcm[j] = value` is never read back; the sum uses the raw quantizer
output `value`.) -/
def calcPcmAbsSum (buffers : List (List ℚ)) : ℚ :=
  (convertToMono buffers).foldl (fun sum v => sum + |float32Value2Int16 v|) 0

/-- The branch on the mean absolute power inside `calcVolumePercentage`:
linear below 1251, logarithmic clamped into `[0,100]` from 1251 up.
`Math.log(power/10000) / Math.log(10)` is the real base-10 logarithm
`Real.logb 10`, which forces this branch into `ℝ`. -/
noncomputable def volumeLevelOfPower (power : ℚ) : ℤ :=
  if power < 1251 then jsRound (power / 1250 * 10)
  else ⌊min 100 (max 0 ((1 + Real.logb 10 ((power : ℝ) / 10000)) * 100)) + 1 / 2⌋

/-- `utils.ts` `calcVolumePercentage`.  JS computes
`power = (pcmAbsSum / pcmLength) || 0`; for every reachable input
(`pcmLength = 0` only arises together with `pcmAbsSum = 0`, where the JS
`0/0 = NaN` is replaced by `0` by the `|| 0`) this equals `0` when
`pcmLength = 0` and the plain quotient otherwise. -/
noncomputable def calcVolumePercentage (pcmAbsSum : ℚ) (pcmLength : ℕ) : ℤ :=
  volumeLevelOfPower (if pcmLength = 0 then 0 else pcmAbsSum / pcmLength)

/-- `recorder.ts` `getVolume`:
`calcVolumePercentage(calcPcmAbsSum(buffers), buffers[0]?.length || 0)`. -/
noncomputable def getVolume (buffers : List (List ℚ)) : ℤ :=
  calcVolumePercentage (calcPcmAbsSum buffers) (buffers.headD []).length

/-- Claim C9: `float32Value2Int8` clamps (never rejects), equals
`clamp(s)*128 + 128` for negative clamped values and `clamp(s)*127 + 128`
otherwise, and its result always lies in `[0, 255]`. -/
theorem float32Value2Int8_spec (s : ℚ) :
    float32Value2Int8 s =
      (if max (-1) (min 1 s) < 0 then max (-1) (min 1 s) * 128 + 128
       else max (-1) (min 1 s) * 127 + 128) ∧
    0 ≤ float32Value2Int8 s ∧ float32Value2Int8 s ≤ 255 := by
  have h1 : (-1 : ℚ) ≤ max (-1) (min 1 s) := le_max_left _ _
  have h2 : max (-1) (min 1 s) ≤ 1 :=
    max_le (by norm_num) (min_le_left _ _)
  have hval : float32Value2Int8 s =
      (if max (-1) (min 1 s) < 0 then max (-1) (min 1 s) * 128 + 128
       else max (-1) (min 1 s) * 127 + 128) := by
    simp only [float32Value2Int8]
    split <;> ring
  refine ⟨hval, ?_, ?_⟩ <;> rw [hval]
  · split <;> nlinarith
  · split <;> nlinarith

/-- Claim C10: the quantizers perform no rounding — each returns exactly the
clamped input times its scale factor (plus 128 in the 8-bit case); in
particular `float32Value2Int16 (1/2) = 16383.5`, which is not an integer;
the value only becomes the integer `16383` at the `Int16Array` store. -/
theorem quantizers_no_rounding :
    (∀ s : ℚ, float32Value2Int16 s =
      (if max (-1) (min 1 s) < 0 then max (-1) (min 1 s) * 32768
       else max (-1) (min 1 s) * 32767)) ∧
    (∀ s : ℚ, float32Value2Int8 s =
      (if max (-1) (min 1 s) < 0 then max (-1) (min 1 s) * 128
       else max (-1) (min 1 s) * 127) + 128) ∧
    float32Value2Int16 (1 / 2) = 32767 / 2 ∧
    (¬ ∃ n : ℤ, float32Value2Int16 (1 / 2) = (n : ℚ)) ∧
    jsToInt16 (float32Value2Int16 (1 / 2)) = 16383 := by
  refine ⟨fun s => rfl, fun s => rfl, by norm_num [float32Value2Int16], ?_, ?_⟩
  · rintro ⟨n, hn⟩
    have : float32Value2Int16 (1 / 2) = 32767 / 2 := by
      norm_num [float32Value2Int16]
    rw [this] at hn
    have h2 : (2 : ℚ) * n = 32767 := by
      field_simp at hn
      linarith
    have h3 : (2 * n : ℤ) = 32767 := by exact_mod_cast h2
    omega
  · norm_num [float32Value2Int16, jsToInt16, jsTrunc]

lemma le_foldlMax (l : List (List ℚ)) (a : ℕ) :
    a ≤ l.foldl (fun acc ch => if ch.length > acc then ch.length else acc) a := by
  induction l generalizing a with
  | nil => exact le_refl a
  | cons c l ih =>
    refine le_trans ?_ (ih _)
    dsimp only
    split <;> omega

lemma mem_le_foldlMax (l : List (List ℚ)) (a : ℕ) (ch : List ℚ) (h : ch ∈ l) :
    ch.length ≤ l.foldl (fun acc ch => if ch.length > acc then ch.length else acc) a := by
  induction l generalizing a with
  | nil => cases h
  | cons c l ih =>
    rcases List.mem_cons.mp h with rfl | h
    · refine le_trans ?_ (le_foldlMax l _)
      dsimp only
      split <;> omega
    · exact ih _ h

lemma foldlMax_eq_init_or_mem (l : List (List ℚ)) (a : ℕ) :
    l.foldl (fun acc ch => if ch.length > acc then ch.length else acc) a = a ∨
      ∃ ch ∈ l, l.foldl (fun acc ch => if ch.length > acc then ch.length else acc) a
        = ch.length := by
  induction l generalizing a with
  | nil => exact Or.inl rfl
  | cons c l ih =>
    rcases ih (if c.length > a then c.length else a) with h | ⟨ch, hm, hv⟩
    · dsimp only [List.foldl_cons]
      rw [h]
      split
      · exact Or.inr ⟨c, List.mem_cons_self c l, rfl⟩
      · exact Or.inl rfl
    · exact Or.inr ⟨ch, List.mem_cons_of_mem c hm, hv⟩

/-- Indexing into the flattening of uniform-width rows. -/
lemma flatten_getElem?_uniform {α : Type} (rows : List (List α)) (w : ℕ)
    (hw : ∀ r ∈ rows, r.length = w) :
    ∀ i j : ℕ, i < rows.length → j < w →
      rows.flatten[i * w + j]? = rows[i]?.bind (fun r => r[j]?) := by
  induction rows with
  | nil => intro i j hi _; cases (Nat.not_lt_zero i) hi
  | cons r rows ih =>
    intro i j hi hj
    have hr : r.length = w := hw r (List.mem_cons_self r rows)
    match i with
    | 0 =>
      simp only [Nat.zero_mul, Nat.zero_add, List.flatten_cons]
      rw [List.getElem?_append, if_pos (by omega), List.getElem?_cons_zero]
      rfl
    | i + 1 =>
      have harith : (i + 1) * w + j = r.length + (i * w + j) := by
        rw [hr]; ring
      simp only [List.flatten_cons, harith]
      rw [List.getElem?_append_right (by omega)]
      have h2 : r.length + (i * w + j) - r.length = i * w + j := by omega
      rw [h2, ih (fun s hs => hw s (List.mem_cons_of_mem r hs)) i j
        (by simpa using hi) hj, List.getElem?_cons_succ]

/-- Corrected claim C1 (amended): for at least two channels the merged
buffer has length `maxLen * channelCount` where `maxLen` is the maximum
channel length, and slot `i*channelCount + j` holds `channels[j][i]`
(`some (some v)`) whenever `i` is within channel `j`, but holds NaN
(`some none`) — not zero — when channel `j` is shorter, because the code
reads `channels[j][i]` out of bounds instead of zero-padding. -/
theorem mergeMultiChannelsBuffer_layout (channels : List (List ℚ))
    (h2 : 2 ≤ channels.length) :
    (mergeMultiChannelsBuffer channels).length =
      maxChannelLength channels * channels.length ∧
    (∀ ch ∈ channels, ch.length ≤ maxChannelLength channels) ∧
    (∃ ch ∈ channels, ch.length = maxChannelLength channels) ∧
    (∀ i j : ℕ, i < maxChannelLength channels → j < channels.length →
      (mergeMultiChannelsBuffer channels)[i * channels.length + j]? =
        some ((channels.getD j [])[i]?)) := by
  obtain ⟨c₀, c₁, rest, rfl⟩ : ∃ c₀ c₁ rest, channels = c₀ :: c₁ :: rest := by
    match channels with
    | c₀ :: c₁ :: rest => exact ⟨c₀, c₁, rest, rfl⟩
  set chs : List (List ℚ) := c₀ :: c₁ :: rest with hchs
  have hmerge : mergeMultiChannelsBuffer chs =
      ((List.range (maxChannelLength chs)).map (fun i =>
        chs.map (fun ch => ch[i]?))).flatten := rfl
  have hrowlen : ∀ r ∈ (List.range (maxChannelLength chs)).map (fun i =>
      chs.map (fun ch => ch[i]?)), r.length = chs.length := by
    intro r hr
    obtain ⟨i, _, rfl⟩ := List.mem_map.mp hr
    exact List.length_map chs _
  have hsumconst : ∀ n c : ℕ, ((List.range n).map (fun _ => c)).sum = n * c := by
    intro n c
    induction n with
    | zero => simp
    | succ n ih =>
      rw [List.range_succ, List.map_append, List.sum_append]
      simp [ih, Nat.succ_mul]
  refine ⟨?_, ?_, ?_, ?_⟩
  · rw [hmerge, List.length_flatten, List.map_map]
    have hcongr : (List.map (List.length ∘ fun i => chs.map (fun ch => ch[i]?))
        (List.range (maxChannelLength chs))) =
        List.map (fun _ => chs.length) (List.range (maxChannelLength chs)) := by
      exact List.map_congr_left (fun i _ => List.length_map chs _)
    rw [hcongr, hsumconst]
  · intro ch hm
    exact mem_le_foldlMax chs _ ch hm
  · rcases foldlMax_eq_init_or_mem chs ((chs.headD []).length) with h | h
    · exact ⟨c₀, List.mem_cons_self _ _, h.symm⟩
    · obtain ⟨ch, hm, hv⟩ := h
      exact ⟨ch, hm, hv.symm⟩
  · intro i j hi hj
    rw [hmerge, flatten_getElem?_uniform _ chs.length hrowlen i j
      (by simpa using hi) hj]
    have hget : chs[j]? = some (chs.getD j []) := by
      rw [List.getD_eq_getElem?_getD]
      cases hx : chs[j]? with
      | none =>
        rw [List.getElem?_eq_none_iff] at hx
        omega
      | some v => rfl
    rw [List.getElem?_map, List.getElem?_range hi]
    show (chs.map (fun ch => ch[i]?))[j]? = some ((chs.getD j [])[i]?)
    rw [List.getElem?_map, hget]
    rfl

/-- Witness for the amended C1 at the counterexample input. -/
theorem mergeMultiChannelsBuffer_layout_witness :
    (mergeMultiChannelsBuffer [[1, 2], [3]]).length = 2 * 2 ∧
    (∀ i j : ℕ, i < maxChannelLength [[1, 2], [3]] → j < 2 →
      (mergeMultiChannelsBuffer [[1, 2], [3]])[i * 2 + j]? =
        some ((([[1, 2], [3]] : List (List ℚ)).getD j [])[i]?)) := by
  have h := mergeMultiChannelsBuffer_layout [[1, 2], [3]] (by decide)
  have hmax : maxChannelLength [[1, 2], [3]] = 2 := rfl
  refine ⟨?_, ?_⟩
  · have := h.1
    rwa [hmax] at this
  · intro i j hi hj
    exact h.2.2.2 i j hi hj

/-- Counterexample to claim C1 as stated: with channels `[[1,2],[3]]` the
padding slot at flat index `1*2+1 = 3` (frame 1 of the short channel) is
NaN (`none`), not zero. -/
theorem mergeMultiChannelsBuffer_pad_not_zero :
    (mergeMultiChannelsBuffer [[1, 2], [3]])[3]? = some none ∧
      some (none : Option ℚ) ≠ some (some (0 : ℚ)) := by
  exact ⟨rfl, by simp⟩

lemma jsRound_nonneg {q : ℚ} (h : 0 ≤ q) : 0 ≤ jsRound q := by
  unfold jsRound
  positivity

lemma srcOutput_length (input : List ℚ) (ir o : ℚ) :
    (srcOutput input ir o).length =
      (jsRound ((input.length * o) / ir)).toNat := by
  simp [srcOutput]

lemma srcOutput_head (input : List ℚ) (ir o : ℚ)
    (h : 0 < (srcOutput input ir o).length) :
    (srcOutput input ir o).head? = some (input.headD 0) := by
  unfold srcOutput
  set M := (jsRound ((input.length * o) / ir)).toNat with hM
  rw [srcOutput_length] at h
  obtain ⟨k, hk⟩ : ∃ k, M = k + 1 := ⟨M - 1, by omega⟩
  simp only [← hM]
  rw [hk, List.range_succ_eq_map]
  simp

/-- Claim C4: for every input buffer and valid distinct rates, the
resampler succeeds, the output length is `round(len * outputRate /
inputRate)`, and (whenever the output is non-empty) output index 0 is
copied directly from input index 0. -/
theorem sampleRateConverter_length_and_head (l : List ℚ) (ir o : ℚ)
    (hir : 1 < ir) (ho : 1 < o) (hne : ir ≠ o) :
    ∃ out, sampleRateConverter (some l) ir o = .ok out ∧
      (out.length : ℤ) = jsRound ((l.length * o) / ir) ∧
      (0 < out.length → out.head? = l.head?) := by
  have hrates : ¬(ir ≤ 1 ∨ o ≤ 1) := by push_neg; exact ⟨hir, ho⟩
  refine ⟨srcOutput l ir o, ?_, ?_, ?_⟩
  · simp [sampleRateConverter, hrates, hne]
  · rw [srcOutput_length]
    have h0 : (0 : ℚ) ≤ (l.length * o) / ir := by positivity
    exact Int.toNat_of_nonneg (jsRound_nonneg h0)
  · intro hpos
    rw [srcOutput_head l ir o hpos]
    have hl : l ≠ [] := by
      rintro rfl
      rw [srcOutput_length] at hpos
      norm_num [jsRound] at hpos
    obtain ⟨a, l', rfl⟩ := List.exists_cons_of_ne_nil hl
    rfl

/-- Witness for C4 — the spec's own scenario: 3 samples resampled from
16000 Hz to 8000 Hz give `round(3/2) = 2` samples, starting with input[0]. -/
theorem sampleRateConverter_length_and_head_witness :
    ∃ out, sampleRateConverter (some [1, 2, 3]) 16000 8000 = .ok out ∧
      out.length = 2 ∧ out.head? = some 1 := by
  obtain ⟨out, hok, hlen, hhead⟩ :=
    sampleRateConverter_length_and_head [1, 2, 3] 16000 8000
      (by norm_num) (by norm_num) (by norm_num)
  have h2 : jsRound (((([1, 2, 3] : List ℚ).length : ℚ) * 8000) / 16000) = 2 := by
    norm_num [jsRound]
  rw [h2] at hlen
  have hlen2 : out.length = 2 := by exact_mod_cast hlen
  exact ⟨out, hok, hlen2, by rw [hhead (by omega)]; rfl⟩

/-- Claim C5: when the computed output length is 1 the zero denominator
`outputLength - 1` is harmless — the interpolation loop body never runs —
and the result is the single-sample list `[input[0]]`. -/
theorem sampleRateConverter_degenerate (l : List ℚ) (ir o : ℚ)
    (hir : 1 < ir) (ho : 1 < o) (hne : ir ≠ o) (hl : l ≠ [])
    (hone : jsRound ((l.length * o) / ir) = 1) :
    ∃ v, l.head? = some v ∧ sampleRateConverter (some l) ir o = .ok [v] := by
  obtain ⟨a, l', rfl⟩ := List.exists_cons_of_ne_nil hl
  have hrates : ¬(ir ≤ 1 ∨ o ≤ 1) := by push_neg; exact ⟨hir, ho⟩
  refine ⟨a, rfl, ?_⟩
  simp only [sampleRateConverter, if_neg hrates, if_neg hne]
  congr 1
  simp only [srcOutput]
  rw [hone]
  rw [show (1 : ℤ).toNat = 1 from rfl, show List.range 1 = [0] from rfl,
    List.map_singleton, if_pos rfl]
  rfl

/-- Witness for C5: 2 samples from 16000 Hz to 8000 Hz has computed output
length `round(2 * 1/2) = 1`; the result is `[input[0]]`. -/
theorem sampleRateConverter_degenerate_witness :
    ∃ v, ([5, 6] : List ℚ).head? = some v ∧
      sampleRateConverter (some [5, 6]) 16000 8000 = .ok [v] :=
  sampleRateConverter_degenerate [5, 6] 16000 8000
    (by norm_num) (by norm_num) (by norm_num) (by simp)
    (by norm_num [jsRound])

/-- Claim C6: `sampleRateConverter` fails exactly when the input is absent
or one of the rates is `≤ 1`; on a present buffer with both rates `> 1` it
always returns a result, whatever the sample values. -/
theorem sampleRateConverter_error_iff (input : Option (List ℚ)) (ir o : ℚ) :
    (∃ e, sampleRateConverter input ir o = .error e) ↔
      (input = none ∨ ir ≤ 1 ∨ o ≤ 1) := by
  constructor
  · rintro ⟨e, he⟩
    match input with
    | none => exact Or.inl rfl
    | some l =>
      by_contra hc
      push_neg at hc
      obtain ⟨-, h1, h2⟩ := hc
      have hrates : ¬(ir ≤ 1 ∨ o ≤ 1) := by push_neg; exact ⟨h1, h2⟩
      simp only [sampleRateConverter, if_neg hrates] at he
      by_cases heq : ir = o <;> simp [heq] at he
  · rintro (rfl | h | h)
    · exact ⟨"input data is null", rfl⟩
    · match input with
      | none => exact ⟨"input data is null", rfl⟩
      | some l =>
        refine ⟨"sample rate must be greater than 1", ?_⟩
        simp [sampleRateConverter, Or.inl h]
    · match input with
      | none => exact ⟨"input data is null", rfl⟩
      | some l =>
        refine ⟨"sample rate must be greater than 1", ?_⟩
        simp [sampleRateConverter, Or.inr h]

/-- Claim C7: equal rates (`> 1`) are the identity — the argument list is
returned unchanged, before any scaling or copying happens. -/
theorem sampleRateConverter_identity (l : List ℚ) (r : ℚ) (hr : 1 < r) :
    sampleRateConverter (some l) r r = .ok l := by
  have hrates : ¬(r ≤ 1 ∨ r ≤ 1) := by push_neg; exact ⟨hr, hr⟩
  simp [sampleRateConverter, hrates, hr]

/-- Witness for C7 at a concrete buffer and rate. -/
theorem sampleRateConverter_identity_witness :
    sampleRateConverter (some [1, 2, 3]) 44100 44100 = .ok [1, 2, 3] :=
  sampleRateConverter_identity [1, 2, 3] 44100 (by norm_num)

lemma jsTrunc_natCast (n : ℕ) : jsTrunc (n : ℚ) = n := by
  unfold jsTrunc
  rw [if_neg (not_lt.mpr (by positivity))]
  exact_mod_cast Int.floor_natCast n

lemma jsToUint32_natCast (n : ℕ) : jsToUint32 (n : ℚ) = n % 4294967296 := by
  unfold jsToUint32
  rw [jsTrunc_natCast]
  omega

lemma jsToUint16_natCast (n : ℕ) : jsToUint16 (n : ℚ) = n % 65536 := by
  unfold jsToUint16
  rw [jsTrunc_natCast]
  omega

lemma length_stringBytes_RIFF : (stringBytes "RIFF").length = 4 := rfl

lemma length_stringBytes_WAVE : (stringBytes "WAVE").length = 4 := rfl

lemma length_stringBytes_fmt : (stringBytes "fmt ").length = 4 := rfl

lemma length_stringBytes_data : (stringBytes "data").length = 4 := rfl

lemma length_uint16bytes (v : ℕ) (le : Bool) : (uint16bytes v le).length = 2 := by
  cases le <;> rfl

lemma length_uint32bytes (v : ℕ) (le : Bool) : (uint32bytes v le).length = 4 := by
  cases le <;> rfl

/-- Writing a byte run at the exact end of the already-written prefix of an
otherwise zeroed buffer appends it to the prefix. -/
lemma setBytes_step (pre bs : List ℕ) (m off : ℕ) (hoff : pre.length = off) :
    setBytes (pre ++ List.replicate m 0) off bs =
      (pre ++ bs) ++ List.replicate (m - bs.length) 0 := by
  unfold setBytes
  subst hoff
  rw [List.take_left pre, List.drop_append bs.length]
  rw [show (List.replicate m (0 : ℕ)).drop bs.length
      = List.replicate (m - bs.length) 0 by simp [List.drop_replicate]]

/-- The 13 field writes of `writeWavHeader` into a zeroed buffer of length
`m ≥ 44` lay the fields end to end, leaving `m - 44` trailing zeros. -/
lemma writeWavHeader_concat (m : ℕ)
    (S0 S1 S2 S3 S4 S5 S6 S7 S8 S9 S10 S11 S12 : List ℕ)
    (h0 : S0.length = 4) (h1 : S1.length = 4) (h2 : S2.length = 4)
    (h3 : S3.length = 4) (h4 : S4.length = 4) (h5 : S5.length = 2)
    (h6 : S6.length = 2) (h7 : S7.length = 4) (h8 : S8.length = 4)
    (h9 : S9.length = 2) (h10 : S10.length = 2) (h11 : S11.length = 4)
    (h12 : S12.length = 4) :
    setBytes (setBytes (setBytes (setBytes (setBytes (setBytes (setBytes
      (setBytes (setBytes (setBytes (setBytes (setBytes (setBytes
      (List.replicate m 0) 0 S0) 4 S1) 8 S2) 12 S3) 16 S4) 20 S5) 22 S6)
      24 S7) 28 S8) 32 S9) 34 S10) 36 S11) 40 S12 =
      (S0 ++ S1 ++ S2 ++ S3 ++ S4 ++ S5 ++ S6 ++ S7 ++ S8 ++ S9 ++ S10 ++
       S11 ++ S12) ++ List.replicate (m - 44) 0 := by
  rw [show (List.replicate m (0 : ℕ)) = [] ++ List.replicate m 0 from rfl,
    setBytes_step [] S0 m 0 rfl,
    setBytes_step ([] ++ S0) S1 _ 4 (by simp [h0]),
    setBytes_step (([] ++ S0) ++ S1) S2 _ 8 (by simp [h0, h1]),
    setBytes_step ((([] ++ S0) ++ S1) ++ S2) S3 _ 12 (by simp [h0, h1, h2]),
    setBytes_step (((([] ++ S0) ++ S1) ++ S2) ++ S3) S4 _ 16
      (by simp [h0, h1, h2, h3]),
    setBytes_step ((((([] ++ S0) ++ S1) ++ S2) ++ S3) ++ S4) S5 _ 20
      (by simp [h0, h1, h2, h3, h4]),
    setBytes_step (((((([] ++ S0) ++ S1) ++ S2) ++ S3) ++ S4) ++ S5) S6 _ 22
      (by simp [h0, h1, h2, h3, h4, h5]),
    setBytes_step ((((((([] ++ S0) ++ S1) ++ S2) ++ S3) ++ S4) ++ S5) ++ S6)
      S7 _ 24 (by simp [h0, h1, h2, h3, h4, h5, h6]),
    setBytes_step (((((((([] ++ S0) ++ S1) ++ S2) ++ S3) ++ S4) ++ S5) ++ S6)
      ++ S7) S8 _ 28 (by simp [h0, h1, h2, h3, h4, h5, h6, h7]),
    setBytes_step ((((((((([] ++ S0) ++ S1) ++ S2) ++ S3) ++ S4) ++ S5) ++ S6)
      ++ S7) ++ S8) S9 _ 32 (by simp [h0, h1, h2, h3, h4, h5, h6, h7, h8]),
    setBytes_step (((((((((([] ++ S0) ++ S1) ++ S2) ++ S3) ++ S4) ++ S5) ++ S6)
      ++ S7) ++ S8) ++ S9) S10 _ 34
      (by simp [h0, h1, h2, h3, h4, h5, h6, h7, h8, h9]),
    setBytes_step ((((((((((([] ++ S0) ++ S1) ++ S2) ++ S3) ++ S4) ++ S5) ++ S6)
      ++ S7) ++ S8) ++ S9) ++ S10) S11 _ 36
      (by simp [h0, h1, h2, h3, h4, h5, h6, h7, h8, h9, h10]),
    setBytes_step (((((((((((([] ++ S0) ++ S1) ++ S2) ++ S3) ++ S4) ++ S5) ++ S6)
      ++ S7) ++ S8) ++ S9) ++ S10) ++ S11) S12 _ 40
      (by simp [h0, h1, h2, h3, h4, h5, h6, h7, h8, h9, h10, h11])]
  have hm : m - S0.length - S1.length - S2.length - S3.length - S4.length -
      S5.length - S6.length - S7.length - S8.length - S9.length - S10.length -
      S11.length - S12.length = m - 44 := by omega
  rw [hm]
  simp

/-- The header byte layout, for arbitrary field values, still carrying the
raw JS integer conversions. -/
lemma createWavHeaderBuffer_eq (len rate cc bd : ℕ) (le : Bool) :
    createWavHeaderBuffer len rate cc bd le =
      stringBytes "RIFF" ++ uint32bytes (jsToUint32 (36 + (len : ℚ))) le ++
      stringBytes "WAVE" ++ stringBytes "fmt " ++
      uint32bytes (jsToUint32 16) le ++ uint16bytes (jsToUint16 1) le ++
      uint16bytes (jsToUint16 (cc : ℚ)) le ++
      uint32bytes (jsToUint32 (rate : ℚ)) le ++
      uint32bytes (jsToUint32 ((rate : ℚ) * (cc : ℚ) * ((bd : ℚ) / 8))) le ++
      uint16bytes (jsToUint16 ((cc : ℚ) * ((bd : ℚ) / 8))) le ++
      uint16bytes (jsToUint16 (bd : ℚ)) le ++ stringBytes "data" ++
      uint32bytes (jsToUint32 (len : ℚ)) le := by
  simp only [createWavHeaderBuffer, writeWavHeader]
  rw [writeWavHeader_concat 44 _ _ _ _ _ _ _ _ _ _ _ _ _
    length_stringBytes_RIFF (length_uint32bytes _ _) length_stringBytes_WAVE
    length_stringBytes_fmt (length_uint32bytes _ _) (length_uint16bytes _ _)
    (length_uint16bytes _ _) (length_uint32bytes _ _) (length_uint32bytes _ _)
    (length_uint16bytes _ _) (length_uint16bytes _ _) length_stringBytes_data
    (length_uint32bytes _ _)]
  simp

/-- Claim C3: the header is exactly 44 bytes with the canonical layout
(markers, `36+length`, fmt-chunk 16, PCM format 1, channel count, sample
rate, byte rate, block align, bit depth, data length), and the spec's
scenario — encoding `[0, 0.5, -1.0]` mono at 16000 Hz, 16-bit (on the
canonical little-endian host) — yields a 44+6-byte container declaring
`dataLength = 6`, `byteRate = 32000`, `blockAlign = 2`. -/
theorem createWavHeaderBuffer_layout (len rate cc bd : ℕ) (le : Bool)
    (hdiv : 8 ∣ bd) (hlen : 36 + len < 4294967296) (hrate : rate < 4294967296)
    (hcc : cc < 65536) (hbd : bd < 65536)
    (hbyte : rate * cc * (bd / 8) < 4294967296)
    (hblock : cc * (bd / 8) < 65536) :
    (createWavHeaderBuffer len rate cc bd le).length = 44 ∧
    createWavHeaderBuffer len rate cc bd le =
      stringBytes "RIFF" ++ uint32bytes (36 + len) le ++ stringBytes "WAVE" ++
      stringBytes "fmt " ++ uint32bytes 16 le ++ uint16bytes 1 le ++
      uint16bytes cc le ++ uint32bytes rate le ++
      uint32bytes (rate * cc * (bd / 8)) le ++
      uint16bytes (cc * (bd / 8)) le ++ uint16bytes bd le ++
      stringBytes "data" ++ uint32bytes len le ∧
    (∃ bytes, float32Buffer2wav [0, 1 / 2, -1] 1 16000 16 true true
        = .ok bytes ∧
      bytes.length = 44 + 6 ∧
      (bytes.drop 40).take 4 = [6, 0, 0, 0] ∧
      (bytes.drop 28).take 4 = [0, 125, 0, 0] ∧
      (bytes.drop 32).take 2 = [2, 0]) := by
  have h8 : ((bd : ℚ)) / 8 = ((bd / 8 : ℕ) : ℚ) := by
    obtain ⟨k, rfl⟩ := hdiv
    rw [Nat.mul_div_cancel_left k (by norm_num)]
    push_cast
    ring
  have heq : createWavHeaderBuffer len rate cc bd le =
      stringBytes "RIFF" ++ uint32bytes (36 + len) le ++ stringBytes "WAVE" ++
      stringBytes "fmt " ++ uint32bytes 16 le ++ uint16bytes 1 le ++
      uint16bytes cc le ++ uint32bytes rate le ++
      uint32bytes (rate * cc * (bd / 8)) le ++
      uint16bytes (cc * (bd / 8)) le ++ uint16bytes bd le ++
      stringBytes "data" ++ uint32bytes len le := by
    rw [createWavHeaderBuffer_eq]
    have e1 : jsToUint32 (36 + (len : ℚ)) = 36 + len := by
      rw [show (36 : ℚ) + (len : ℚ) = ((36 + len : ℕ) : ℚ) by push_cast; ring,
        jsToUint32_natCast, Nat.mod_eq_of_lt hlen]
    have e2 : jsToUint32 (16 : ℚ) = 16 := by
      rw [show (16 : ℚ) = ((16 : ℕ) : ℚ) by norm_num, jsToUint32_natCast]
    have e3 : jsToUint16 (1 : ℚ) = 1 := by
      rw [show (1 : ℚ) = ((1 : ℕ) : ℚ) by norm_num, jsToUint16_natCast]
    have e4 : jsToUint16 (cc : ℚ) = cc := by
      rw [jsToUint16_natCast, Nat.mod_eq_of_lt hcc]
    have e5 : jsToUint32 (rate : ℚ) = rate := by
      rw [jsToUint32_natCast, Nat.mod_eq_of_lt hrate]
    have e6 : jsToUint32 ((rate : ℚ) * (cc : ℚ) * ((bd : ℚ) / 8)) =
        rate * cc * (bd / 8) := by
      rw [h8, show (rate : ℚ) * (cc : ℚ) * ((bd / 8 : ℕ) : ℚ) =
        ((rate * cc * (bd / 8) : ℕ) : ℚ) by push_cast; ring,
        jsToUint32_natCast, Nat.mod_eq_of_lt hbyte]
    have e7 : jsToUint16 ((cc : ℚ) * ((bd : ℚ) / 8)) = cc * (bd / 8) := by
      rw [h8, show (cc : ℚ) * ((bd / 8 : ℕ) : ℚ) =
        ((cc * (bd / 8) : ℕ) : ℚ) by push_cast; ring,
        jsToUint16_natCast, Nat.mod_eq_of_lt hblock]
    have e8 : jsToUint16 (bd : ℚ) = bd := by
      rw [jsToUint16_natCast, Nat.mod_eq_of_lt hbd]
    have e9 : jsToUint32 (len : ℚ) = len := by
      rw [jsToUint32_natCast, Nat.mod_eq_of_lt (by omega)]
    rw [e1, e2, e3, e4, e5, e6, e7, e8, e9]
  refine ⟨?_, heq, ?_⟩
  · rw [heq]
    simp [length_stringBytes_RIFF, length_stringBytes_WAVE,
      length_stringBytes_fmt, length_stringBytes_data, length_uint16bytes,
      length_uint32bytes]
  · have hmap : ([0, 1 / 2, -1] : List ℚ).map
        (fun sample => ((jsToInt16 (float32Value2Int16 sample) : ℤ) : ℚ)) =
        [(0 : ℚ), 16383, -32768] := by
      norm_num [float32Value2Int16, jsToInt16, jsTrunc]
    have hbytes : float32Buffer2wav [0, 1 / 2, -1] 1 16000 16 true true = .ok
        ((stringBytes "RIFF" ++ uint32bytes 42 true ++ stringBytes "WAVE" ++
          stringBytes "fmt " ++ uint32bytes 16 true ++ uint16bytes 1 true ++
          uint16bytes 1 true ++ uint32bytes 16000 true ++
          uint32bytes 32000 true ++ uint16bytes 2 true ++
          uint16bytes 16 true ++ stringBytes "data" ++ uint32bytes 6 true) ++
          [0, 0, 255, 63, 0, 128]) := by
      rw [show float32Buffer2wav [0, 1 / 2, -1] 1 16000 16 true true =
        numberArray2wav (([0, 1 / 2, -1] : List ℚ).map
          (fun sample => ((jsToInt16 (float32Value2Int16 sample) : ℤ) : ℚ)))
          1 16000 16 true true from rfl, hmap]
      simp only [numberArray2wav, writeWavHeader]
      norm_num [jsToUint16, jsToUint32, jsTrunc]
      rw [writeWavHeader_concat 50 _ _ _ _ _ _ _ _ _ _ _ _ _
        length_stringBytes_RIFF (length_uint32bytes _ _)
        length_stringBytes_WAVE length_stringBytes_fmt
        (length_uint32bytes _ _) (length_uint16bytes _ _)
        (length_uint16bytes _ _) (length_uint32bytes _ _)
        (length_uint32bytes _ _) (length_uint16bytes _ _)
        (length_uint16bytes _ _) length_stringBytes_data
        (length_uint32bytes _ _)]
      rw [show (50 : ℕ) - 44 = 6 from rfl]
      rw [setBytes_step _ _ 6 44 (by
        simp [length_stringBytes_RIFF, length_stringBytes_WAVE,
          length_stringBytes_fmt, length_stringBytes_data, length_uint16bytes,
          length_uint32bytes])]
      simp [uint16bytes]
    rw [hbytes]
    refine ⟨_, rfl, by decide, by decide, by decide, by decide⟩

/-- Witness for C3 at the scenario's own field values. -/
theorem createWavHeaderBuffer_layout_witness :
    (createWavHeaderBuffer 6 16000 1 16 true).length = 44 :=
  (createWavHeaderBuffer_layout 6 16000 1 16 true (by norm_num) (by norm_num)
    (by norm_num) (by norm_num) (by norm_num) (by norm_num) (by norm_num)).1

/-- Claim C2 is refuted by the code (code bug): with `littleEndian = false`
on a little-endian host, `numberArray2wav` writes the header fields in HOST
order (little-endian) because the flag is not forwarded to
`writeWavHeader`, while the 16-bit payload honours the flag (big-endian).
Here the sample-rate field at bytes 24..27 comes out `[128, 62, 0, 0]`
(little-endian 16000 = 0x3E80) instead of the big-endian
`[0, 0, 62, 128]` the claim requires, while the payload sample `1` is
stored big-endian as `[0, 1]`. -/
theorem numberArray2wav_header_ignores_endian_flag :
    ∃ bytes, numberArray2wav [1] 1 16000 16 false true = .ok bytes ∧
      (bytes.drop 24).take 4 = [128, 62, 0, 0] ∧
      (bytes.drop 44).take 2 = [0, 1] ∧
      uint32bytes 16000 false = [0, 0, 62, 128] ∧
      ([128, 62, 0, 0] : List ℕ) ≠ [0, 0, 62, 128] := by
  have hbytes : numberArray2wav [1] 1 16000 16 false true = .ok
      ((stringBytes "RIFF" ++ uint32bytes 38 true ++ stringBytes "WAVE" ++
        stringBytes "fmt " ++ uint32bytes 16 true ++ uint16bytes 1 true ++
        uint16bytes 1 true ++ uint32bytes 16000 true ++
        uint32bytes 32000 true ++ uint16bytes 2 true ++ uint16bytes 16 true ++
        stringBytes "data" ++ uint32bytes 2 true) ++ [0, 1]) := by
    simp only [numberArray2wav, writeWavHeader]
    norm_num [jsToUint16, jsToUint32, jsTrunc]
    rw [writeWavHeader_concat 46 _ _ _ _ _ _ _ _ _ _ _ _ _
      length_stringBytes_RIFF (length_uint32bytes _ _)
      length_stringBytes_WAVE length_stringBytes_fmt
      (length_uint32bytes _ _) (length_uint16bytes _ _)
      (length_uint16bytes _ _) (length_uint32bytes _ _)
      (length_uint32bytes _ _) (length_uint16bytes _ _)
      (length_uint16bytes _ _) length_stringBytes_data
      (length_uint32bytes _ _)]
    rw [show (46 : ℕ) - 44 = 2 from rfl]
    rw [setBytes_step _ _ 2 44 (by
      simp [length_stringBytes_RIFF, length_stringBytes_WAVE,
        length_stringBytes_fmt, length_stringBytes_data, length_uint16bytes,
        length_uint32bytes])]
    simp [uint16bytes]
  rw [hbytes]
  refine ⟨_, rfl, by decide, by decide, by decide, by decide⟩

lemma logb_1251 : (619 : ℝ) / 200 ≤ Real.logb 10 1251 := by
  rw [Real.le_logb_iff_rpow_le (by norm_num) (by norm_num)]
  have hkey : (10 : ℝ) ^ (619 : ℕ) ≤ 1251 ^ (200 : ℕ) := by
    have h : (10 : ℕ) ^ 619 ≤ 1251 ^ 200 := by norm_num
    exact_mod_cast h
  have hpow : ((10 : ℝ) ^ ((619 : ℝ) / 200)) ^ (200 : ℕ) = (10 : ℝ) ^ (619 : ℕ) := by
    rw [← Real.rpow_natCast ((10 : ℝ) ^ ((619 : ℝ) / 200)) 200,
      ← Real.rpow_mul (by norm_num : (0 : ℝ) ≤ 10)]
    rw [show (619 : ℝ) / 200 * (200 : ℕ) = ((619 : ℕ) : ℝ) by push_cast; ring]
    rw [Real.rpow_natCast]
  refine le_of_pow_le_pow_left₀ (n := 200) (by norm_num) (by norm_num) ?_
  rw [hpow]
  exact hkey

/-- From power 1251 on, the unclamped logarithmic expression is at least
9.5, so after rounding the level starts at 10 — exactly where the linear
region tops out. -/
lemma logRegion_ge (p : ℚ) (hp : (1251 : ℚ) ≤ p) :
    (19 / 2 : ℝ) ≤ (1 + Real.logb 10 ((p : ℝ) / 10000)) * 100 := by
  have hp' : (1251 : ℝ) ≤ (p : ℝ) := by exact_mod_cast hp
  have hdiv : Real.logb 10 ((p : ℝ) / 10000) =
      Real.logb 10 (p : ℝ) - Real.logb 10 10000 :=
    Real.logb_div (by linarith) (by norm_num)
  have h10000 : Real.logb 10 (10000 : ℝ) = 4 := by
    rw [show (10000 : ℝ) = 10 ^ (4 : ℕ) by norm_num, Real.logb_pow,
      Real.logb_self_eq_one (by norm_num)]
    norm_num
  have hmono : Real.logb 10 (1251 : ℝ) ≤ Real.logb 10 (p : ℝ) :=
    Real.logb_le_logb_of_le (by norm_num) (by norm_num) hp'
  have hkey := logb_1251
  rw [hdiv, h10000]
  linarith

lemma volumeLevelOfPower_range (p : ℚ) (hp : 0 ≤ p) :
    0 ≤ volumeLevelOfPower p ∧ volumeLevelOfPower p ≤ 100 := by
  unfold volumeLevelOfPower jsRound
  split
  · constructor
    · apply Int.le_floor.mpr
      push_cast
      linarith
    · have hlt : (p / 1250 * 10 + 1 / 2 : ℚ) < ((101 : ℤ) : ℚ) := by
        push_cast
        linarith
      exact Int.lt_add_one_iff.mp (Int.floor_lt.mpr hlt)
  · constructor
    · apply Int.le_floor.mpr
      have h0 : (0 : ℝ) ≤ min 100 (max 0 ((1 + Real.logb 10 ((p : ℝ) / 10000)) * 100)) :=
        le_min (by norm_num) (le_max_left _ _)
      push_cast
      linarith
    · have hle : min 100 (max 0 ((1 + Real.logb 10 ((p : ℝ) / 10000)) * 100)) ≤ 100 :=
        min_le_left _ _
      have hlt : min 100 (max 0 ((1 + Real.logb 10 ((p : ℝ) / 10000)) * 100)) + 1 / 2
          < ((101 : ℤ) : ℝ) := by
        push_cast
        linarith
      exact Int.lt_add_one_iff.mp (Int.floor_lt.mpr hlt)

lemma volumeLevelOfPower_mono (p₁ p₂ : ℚ) (h12 : p₁ ≤ p₂) :
    volumeLevelOfPower p₁ ≤ volumeLevelOfPower p₂ := by
  unfold volumeLevelOfPower jsRound
  by_cases hc1 : p₁ < 1251 <;> by_cases hc2 : p₂ < 1251
  · rw [if_pos hc1, if_pos hc2]
    apply Int.floor_le_floor
    have : p₁ / 1250 ≤ p₂ / 1250 := by linarith
    linarith
  · rw [if_pos hc1, if_neg hc2]
    have hL : ⌊(p₁ / 1250 * 10 + 1 / 2 : ℚ)⌋ ≤ 10 := by
      have hlt : (p₁ / 1250 * 10 + 1 / 2 : ℚ) < ((11 : ℤ) : ℚ) := by
        push_cast
        linarith
      exact Int.lt_add_one_iff.mp (Int.floor_lt.mpr hlt)
    have hR : (10 : ℤ) ≤
        ⌊min 100 (max 0 ((1 + Real.logb 10 ((p₂ : ℝ) / 10000)) * 100)) + 1 / 2⌋ := by
      apply Int.le_floor.mpr
      have hX := logRegion_ge p₂ (by linarith)
      have hmax : (19 / 2 : ℝ) ≤ max 0 ((1 + Real.logb 10 ((p₂ : ℝ) / 10000)) * 100) :=
        le_trans hX (le_max_right _ _)
      have hmin : (19 / 2 : ℝ) ≤
          min 100 (max 0 ((1 + Real.logb 10 ((p₂ : ℝ) / 10000)) * 100)) :=
        le_min (by norm_num) hmax
      push_cast
      linarith
    omega
  · exact absurd (lt_of_le_of_lt h12 hc2) hc1
  · rw [if_neg hc1, if_neg hc2]
    apply Int.floor_le_floor
    have hp₁pos : (0 : ℝ) < (p₁ : ℝ) / 10000 := by
      have : (1251 : ℚ) ≤ p₁ := le_of_not_lt hc1
      have h1 : (1251 : ℝ) ≤ (p₁ : ℝ) := by exact_mod_cast this
      linarith
    have hdivle : (p₁ : ℝ) / 10000 ≤ (p₂ : ℝ) / 10000 := by
      have : (p₁ : ℝ) ≤ (p₂ : ℝ) := by exact_mod_cast h12
      linarith
    have hmono : Real.logb 10 ((p₁ : ℝ) / 10000) ≤ Real.logb 10 ((p₂ : ℝ) / 10000) :=
      Real.logb_le_logb_of_le (by norm_num) hp₁pos hdivle
    have hmaxle : max 0 ((1 + Real.logb 10 ((p₁ : ℝ) / 10000)) * 100) ≤
        max 0 ((1 + Real.logb 10 ((p₂ : ℝ) / 10000)) * 100) :=
      max_le_max (le_refl 0) (by linarith)
    have hminle : min 100 (max 0 ((1 + Real.logb 10 ((p₁ : ℝ) / 10000)) * 100)) ≤
        min 100 (max 0 ((1 + Real.logb 10 ((p₂ : ℝ) / 10000)) * 100)) :=
      min_le_min (le_refl 100) hmaxle
    linarith

lemma volumeLevelOfPower_zero : volumeLevelOfPower 0 = 0 := by
  unfold volumeLevelOfPower jsRound
  rw [if_pos (by norm_num)]
  norm_num

lemma absSum_foldl_nonneg (l : List ℚ) (init : ℚ) (h : 0 ≤ init) :
    0 ≤ l.foldl (fun sum v => sum + |float32Value2Int16 v|) init := by
  induction l generalizing init with
  | nil => exact h
  | cons v l ih =>
    exact ih _ (by positivity)

lemma absSum_foldl_zero (l : List ℚ) (hz : ∀ v ∈ l, v = 0) (init : ℚ) :
    l.foldl (fun sum v => sum + |float32Value2Int16 v|) init = init := by
  induction l generalizing init with
  | nil => rfl
  | cons v l ih =>
    have hv : v = 0 := hz v (List.mem_cons_self v l)
    have hq : float32Value2Int16 v = 0 := by
      rw [hv]
      norm_num [float32Value2Int16]
    dsimp only [List.foldl_cons]
    rw [hq, abs_zero, add_zero]
    exact ih (fun w hw => hz w (List.mem_cons_of_mem v hw)) init

lemma getD_zero_of_allZero (ch : List ℚ) (hz : ∀ v ∈ ch, v = 0) (i : ℕ) :
    ch.getD i 0 = 0 := by
  rw [List.getD_eq_getElem?_getD]
  cases hx : ch[i]? with
  | none => rfl
  | some v =>
    have : v ∈ ch := List.getElem?_mem hx
    simpa using hz v this

lemma convertToMono_allZero (frame : List (List ℚ))
    (hz : ∀ ch ∈ frame, ∀ v ∈ ch, v = 0) :
    ∀ v ∈ convertToMono frame, v = 0 := by
  intro v hv
  match frame, hz, hv with
  | [ch], hz, hv => exact hz ch (List.mem_cons_self ch []) v hv
  | [], _, hv => cases hv
  | c₀ :: c₁ :: rest, hz, hv =>
    rw [show convertToMono (c₀ :: c₁ :: rest) =
      (List.range ((c₀ :: c₁ :: rest).headD []).length).map (fun i =>
        ((c₀ :: c₁ :: rest).foldl (fun sum ch => sum + ch.getD i 0) 0) /
          ((c₀ :: c₁ :: rest).length : ℚ)) from rfl] at hv
    obtain ⟨i, -, rfl⟩ := List.mem_map.mp hv
    have hfold : ∀ (l : List (List ℚ)), (∀ ch ∈ l, ∀ w ∈ ch, w = 0) →
        ∀ init : ℚ, l.foldl (fun sum ch => sum + ch.getD i 0) init = init := by
      intro l
      induction l with
      | nil => intro _ init; rfl
      | cons c l ih =>
        intro hzl init
        dsimp only [List.foldl_cons]
        rw [getD_zero_of_allZero c (hzl c (List.mem_cons_self c l)) i, add_zero]
        exact ih (fun ch hch => hzl ch (List.mem_cons_of_mem c hch)) init
    rw [hfold (c₀ :: c₁ :: rest) hz 0]
    simp

/-- Corrected claim C8 (amended): the volume level is always in `[0, 100]`
for any frame of equal-length channels, a silent (all-zero, possibly
empty) frame yields level 0, and the level is monotone non-decreasing in
the quantized absolute sum (hence in the power) at fixed frame length —
but NOT pointwise in `|sample|`, because negatives are scaled by 32768 and
positives only by 32767 (see the counterexample theorem). -/
theorem volumeLevel_range_silence_mono (frame : List (List ℚ)) (s₁ s₂ : ℚ)
    (len : ℕ) (hframe : frame ≠ [])
    (huni : ∀ ch ∈ frame, ch.length = (frame.headD []).length)
    (hs : 0 ≤ s₁) (h12 : s₁ ≤ s₂) :
    (0 ≤ getVolume frame ∧ getVolume frame ≤ 100) ∧
    ((∀ ch ∈ frame, ∀ v ∈ ch, v = 0) → getVolume frame = 0) ∧
    calcVolumePercentage s₁ len ≤ calcVolumePercentage s₂ len := by
  refine ⟨?_, ?_, ?_⟩
  · unfold getVolume calcVolumePercentage
    apply volumeLevelOfPower_range
    split
    · exact le_refl 0
    · have h0 : 0 ≤ calcPcmAbsSum frame :=
        absSum_foldl_nonneg _ 0 (le_refl 0)
      positivity
  · intro hz
    unfold getVolume calcVolumePercentage
    have habs : calcPcmAbsSum frame = 0 := by
      unfold calcPcmAbsSum
      exact absSum_foldl_zero _ (convertToMono_allZero frame hz) 0
    rw [habs]
    split
    · exact volumeLevelOfPower_zero
    · rw [zero_div]
      exact volumeLevelOfPower_zero
  · unfold calcVolumePercentage
    split
    · exact le_refl _
    · have hlen : (0 : ℚ) < (len : ℚ) := by
        rename_i hne
        have : 0 < len := Nat.pos_of_ne_zero hne
        exact_mod_cast this
      exact volumeLevelOfPower_mono _ _ (div_le_div_of_nonneg_right h12 hlen.le)

/-- Witness for the amended C8 at a concrete silent frame and absolute
sums. -/
theorem volumeLevel_range_silence_mono_witness :
    (0 ≤ getVolume [[0]] ∧ getVolume [[0]] ≤ 100) ∧
    calcVolumePercentage 0 1 ≤ calcVolumePercentage 1 1 := by
  have h := volumeLevel_range_silence_mono [[0]] 0 1 1 (by simp) (by simp)
    (le_refl 0) (by norm_num)
  exact ⟨h.1, h.2.2⟩

/-- Counterexample to claim C8 as stated: the level is NOT monotone
non-decreasing pointwise in the absolute signal magnitude.  The one-sample
frame `[-375/65536]` quantizes to `-187.5` (negatives scale by 32768),
giving power 187.5 and linear level `round(1.5) = 2`, while the
larger-magnitude positive sample `96001/16777216` quantizes through the
32767 scale to about `187.496`, whose level rounds down to 1. -/
theorem getVolume_not_pointwise_monotone :
    |(-375 / 65536 : ℚ)| < |(96001 / 16777216 : ℚ)| ∧
    getVolume [[-375 / 65536]] = 2 ∧ getVolume [[96001 / 16777216]] = 1 := by
  refine ⟨by rw [abs_of_neg (by norm_num), abs_of_pos (by norm_num)]; norm_num,
    ?_, ?_⟩
  · have hmono : convertToMono [[-375 / 65536]] = [-375 / 65536] := rfl
    unfold getVolume calcVolumePercentage calcPcmAbsSum volumeLevelOfPower jsRound
    rw [hmono]
    norm_num [float32Value2Int16]
    rw [abs_of_pos (show (0 : ℚ) < 375 / 2 by norm_num),
      if_pos (show (375 / 2 : ℚ) < 1251 by norm_num)]
    norm_num
  · have hmono : convertToMono [[96001 / 16777216]] = [96001 / 16777216] := rfl
    unfold getVolume calcVolumePercentage calcPcmAbsSum volumeLevelOfPower jsRound
    rw [hmono]
    norm_num [float32Value2Int16]
    rw [abs_of_pos (show (0 : ℚ) < 3145664767 / 16777216 by norm_num),
      if_pos (show (3145664767 / 16777216 : ℚ) < 1251 by norm_num)]
    norm_num

end Recorder
